import Mathlib

/-!
Shallow embedding of the Smart_Sentinel YOLO listener (`yolo_listener.py`):
the detection-cycle orchestrator `start_yolo_detection`, the MQTT callback
`on_message`, frame capture `capture_single_frame`, output-folder discovery
`get_latest_exp_folder`, label inspection `check_for_person` and evidence
lookup `get_saved_evidence_path`.

Filesystem and device effects are represented by explicit environment
records; exceptions of the Python code are represented by `Except` values
or by Boolean raise-flags in the environments.
-/

namespace SmartSentinel

/-- The MQTT topic the listener subscribes to (`AI_TRIGGER_TOPIC`). -/
def AI_TRIGGER_TOPIC : String := "/smart_sentinel/command/ai_trigger"

/-- The payload that activates a cycle in `on_message`. -/
def activateCmd : String := "ACTIVATE"

/-- `PERSON_CLASS_ID = '0'`, the class id `check_for_person` searches for,
as a list of characters. -/
def PERSON_CLASS_ID : List Char := ['0']

/-- A regex word character (`\w` over this ASCII data): letter, digit or
underscore. -/
def isWordChar (c : Char) : Bool := c.isAlphanum || c = '_'

/-- A `\b` boundary next to a word-character token: satisfied at the ends
of the text and next to any non-word character. -/
def boundaryOk : Option Char → Bool
  | none => true
  | some c => !isWordChar c

/-- Does `tok` occur literally at the head of the second list? -/
def startsWithTok : List Char → List Char → Bool
  | [], _ => true
  | _ :: _, [] => false
  | t :: ts, c :: cs => (t == c) && startsWithTok ts cs

/-- `re.search` of the pattern `\b tok \b` (the pattern built in
`check_for_person`) over the remaining text, scanning left to right;
`prev` is the character immediately before the current position. -/
def reSearchWordAux (tok : List Char) (prev : Option Char) : List Char → Bool
  | [] => false
  | c :: rest =>
      (boundaryOk prev && startsWithTok tok (c :: rest) &&
        boundaryOk (((c :: rest).drop tok.length).head?))
      || reSearchWordAux tok (some c) rest

/-- `re.search` of `\b tok \b` over `content`. -/
def reSearchWord (tok content : List Char) : Bool :=
  reSearchWordAux tok none content

/-- One file of the `labels` subdirectory: its name, whether reading it
(the size probe or the open/read) raises, and its text content. -/
structure LabelFile where
  name : List Char
  readRaises : Bool
  content : List Char
deriving DecidableEq

/-- `name.endswith(".txt")`. -/
def endsWithTxt (name : List Char) : Bool :=
  startsWithTok ['t', 'x', 't', '.'] name.reverse

/-- A label file that `check_for_person` actually scans: `.txt` name,
readable, non-empty. Zero-byte files are skipped, and a per-file read
error is caught inside the loop, which then continues. -/
def consideredFile (f : LabelFile) : Bool :=
  endsWithTxt f.name && !f.readRaises && decide (f.content.length ≠ 0)

/-- `check_for_person`: false when the labels directory is missing,
otherwise true iff some scanned `.txt` file's content matches
`re.search(r'\b0\b', content)`. -/
def check_for_person (labelsDirExists : Bool) (labels : List LabelFile) : Bool :=
  if labelsDirExists then
    labels.any fun f => consideredFile f && reSearchWord PERSON_CLASS_ID f.content
  else false

/-- Splits character text on newline characters; `acc` holds the reversed
current line. -/
def splitLinesAux (acc : List Char) : List Char → List (List Char)
  | [] => [acc.reverse]
  | c :: rest =>
      if c = '\n' then acc.reverse :: splitLinesAux [] rest
      else splitLinesAux (c :: acc) rest

/-- The lines of a character text. -/
def splitLines (content : List Char) : List (List Char) :=
  splitLinesAux [] content

/-- The first whitespace-delimited token of a line. -/
def firstTokenOf (line : List Char) : List Char :=
  line.takeWhile fun c => !c.isWhitespace

/-- Modelled from the claim wording, for comparison with the source
behaviour: the class id appears as a standalone token at the start of some
line of `content`. -/
def specLineStartToken (tok content : List Char) : Bool :=
  (splitLines content).any fun line => decide (firstTokenOf line = tok)

/-- One `runs/detect/exp*` directory as the cycle sees it: its path and
creation time, its `labels` subdirectory, and the `*.jpg` files found by
`glob` under `crops/person` with their creation times. -/
structure ExpData where
  path : String
  ctime : Int
  labelsDirExists : Bool
  labels : List LabelFile
  cropsDirExists : Bool
  cropJpgs : List (String × Int)
deriving DecidableEq

/-- Python `max(l, key=getctime)` on a list of folders: the first element
of greatest key (later elements replace the best only on a strictly
greater key). -/
def pyMaxExp : List ExpData → Option ExpData
  | [] => none
  | x :: xs => some (xs.foldl (fun b e => if b.ctime < e.ctime then e else b) x)

/-- `get_latest_exp_folder`: `none` when no `exp*` folders exist,
otherwise the newest folder among those created within the last 30
seconds, falling back to the newest overall when none is that recent. -/
def get_latest_exp_folder (now : Int) (exps : List ExpData) : Option ExpData :=
  match exps with
  | [] => none
  | _ :: _ =>
    let recent := exps.filter fun e => decide (now - 30 < e.ctime)
    if recent.isEmpty then pyMaxExp exps else pyMaxExp recent

/-- Python `max(l, key=getctime)` on the crop files. -/
def pyMaxCrop : List (String × Int) → Option (String × Int)
  | [] => none
  | x :: xs => some (xs.foldl (fun b e => if b.2 < e.2 then e else b) x)

/-- `get_saved_evidence_path`: the newest `*.jpg` under `crops/person`,
`none` when the directory is missing or holds no crops. -/
def get_saved_evidence_path (e : ExpData) : Option String :=
  if e.cropsDirExists then
    match pyMaxCrop e.cropJpgs with
    | some c => some c.1
    | none => none
  else none

/-- Outcome oracle for one `capture_single_frame` call. -/
structure CapEnv where
  openRaises : Bool
  opened : Bool
  readRaises : Bool
  readOk : Bool
  writeRaises : Bool
deriving DecidableEq

/-- The body of `capture_single_frame` before its `except` handler:
`Except.error` marks a raised exception (index conversion or device open,
frame read, image write), `Except.ok` a normal boolean return. -/
def capture_body (env : CapEnv) : Except String Bool :=
  if env.openRaises then Except.error "open" else
  if !env.opened then Except.ok false else
  if env.readRaises then Except.error "read" else
  if !env.readOk then Except.ok false else
  if env.writeRaises then Except.error "write" else
  Except.ok true

/-- `capture_single_frame(index, path)`: the whole body runs inside
`try/except Exception`, so every raised exception is mapped to `False`. -/
def capture_single_frame (_index : String) (_path : String) (env : CapEnv) : Bool :=
  match capture_body env with
  | Except.ok b => b
  | Except.error _ => false

/-- `CAMERA_INDEX` of the configuration section. -/
def CAMERA_INDEX : String := "1"

/-- `TEMP_IMAGE_PATH`, the fixed path of the temporary capture. -/
def TEMP_IMAGE_PATH : String := "temp_capture.jpg"

/-- Environment of one detection cycle: the capture oracle, whether
`subprocess.Popen` raises (a launch error), the child's exit status (the
source calls `process.wait()` but never reads the returned status), the
clock, the `runs/detect/exp*` folders visible after the child exits, and
raise-flags for the two stages whose exceptions would reach the
orchestrator's generic handler (`os.listdir` inside `check_for_person` and
`glob` inside `get_saved_evidence_path`). -/
structure CycleEnv where
  cap : CapEnv
  launchRaises : Bool
  exitCode : Int
  now : Int
  exps : List ExpData
  inspectRaises : Bool
  evidenceRaises : Bool
deriving DecidableEq

/-- The listener's mutable state as far as the claims see it: the global
`is_detecting` flag and whether `temp_capture.jpg` exists on disk. -/
structure SState where
  is_detecting : Bool
  tempExists : Bool
deriving DecidableEq

/-- Observable micro-steps of the listener. -/
inductive Act where
  | captureAttempt
  | launchDetector
  | waitForProc
  | settleDelay
  | locateOutput
  | outputMissingLog
  | inspectLabels
  | locateEvidence
  | alert (evidence : Option String)
  | standbyLog
  | catchError
  | removeTemp
  | releaseFlag
  | cycleStart
  | discardTrigger
deriving DecidableEq

/-- The `try` block of `start_yolo_detection` (launch, wait, settle,
locate, inspect, alert): the actions it performs, and whether it raised an
exception (to be caught by the orchestrator's handlers). The status
returned by `process.wait()` is not inspected anywhere, and
`subprocess.CalledProcessError` is never raised by `Popen` plus `wait`, so
that specific handler is unreachable; a raised body exception lands in the
generic `except Exception` handler. -/
def tryBody (env : CycleEnv) : List Act × Bool :=
  if env.launchRaises then ([], true)
  else
    match get_latest_exp_folder env.now env.exps with
    | none =>
        ([Act.launchDetector, Act.waitForProc, Act.settleDelay,
          Act.locateOutput, Act.outputMissingLog], false)
    | some exp =>
        if env.inspectRaises then
          ([Act.launchDetector, Act.waitForProc, Act.settleDelay,
            Act.locateOutput], true)
        else if check_for_person exp.labelsDirExists exp.labels then
          if env.evidenceRaises then
            ([Act.launchDetector, Act.waitForProc, Act.settleDelay,
              Act.locateOutput, Act.inspectLabels], true)
          else
            ([Act.launchDetector, Act.waitForProc, Act.settleDelay,
              Act.locateOutput, Act.inspectLabels, Act.locateEvidence,
              Act.alert (get_saved_evidence_path exp)], false)
        else
          ([Act.launchDetector, Act.waitForProc, Act.settleDelay,
            Act.locateOutput, Act.inspectLabels, Act.standbyLog], false)

/-- `start_yolo_detection`, as a trace of (action, state-after) pairs.
A capture failure returns before the `try` block: the flag is dropped and
no cleanup code runs. Otherwise the `try` body runs, a raised exception is
caught (the handler prints and falls through), and the `finally` block
removes the temporary image when `os.path.exists` holds (it always does on
this path: the successful capture wrote the file and nothing removed it
earlier) and resets `is_detecting` as its last statement. -/
def start_yolo_detection (env : CycleEnv) (s0 : SState) : List (Act × SState) :=
  if capture_single_frame CAMERA_INDEX TEMP_IMAGE_PATH env.cap then
    let s1 : SState := { s0 with tempExists := true }
    ((Act.captureAttempt, s1) :: (tryBody env).1.map fun a => (a, s1))
      ++ (if (tryBody env).2 then [(Act.catchError, s1)] else [])
      ++ ((if s1.tempExists then
            [(Act.removeTemp, { s1 with tempExists := false })] else [])
          ++ [(Act.releaseFlag, { is_detecting := false, tempExists := false })])
  else
    [(Act.captureAttempt, s0),
     (Act.releaseFlag, { s0 with is_detecting := false })]

/-- A transport event: the delivery of one MQTT message (together with the
environment a cycle started by it would run in), or one micro-step of the
currently active cycle. -/
inductive Ev where
  | deliver (topic payload : String) (env : CycleEnv)
  | tick

/-- Listener-level state: the global `is_detecting` flag, whether the
temporary image exists, and the remaining micro-steps of the active
cycle. -/
structure SysState where
  flag : Bool
  temp : Bool
  rest : List (Act × SState)
deriving DecidableEq

/-- One step of the listener. `deliver` is `on_message`: a message on the
trigger topic with payload ACTIVATE either starts a cycle (when
`is_detecting` is false: the flag is set and the cycle's steps become
pending) or is logged and dropped; any other message is ignored. `tick`
advances the active cycle by one micro-step. -/
def sysStep (st : SysState) : Ev → SysState × List Act
  | Ev.tick =>
    match st.rest with
    | [] => (st, [])
    | (a, s) :: tl =>
        ({ flag := s.is_detecting, temp := s.tempExists, rest := tl }, [a])
  | Ev.deliver topic payload env =>
    if topic == AI_TRIGGER_TOPIC && payload == activateCmd then
      if st.flag then (st, [Act.discardTrigger])
      else
        ({ flag := true, temp := st.temp,
           rest := start_yolo_detection env
             { is_detecting := true, tempExists := st.temp } },
         [Act.cycleStart])
    else (st, [])

/-- Runs a sequence of events, collecting the emitted actions. -/
def sysRun (st : SysState) : List Ev → SysState × List Act
  | [] => (st, [])
  | e :: es =>
    let p := sysStep st e
    let q := sysRun p.1 es
    (q.1, p.2 ++ q.2)

/-- The listener's start state: idle, no temporary image, no pending
cycle. -/
def initState : SysState := { flag := false, temp := false, rest := [] }

/-- How many cycle starts a list of actions contains. -/
def nStarts (l : List Act) : Nat :=
  (l.filter fun a => decide (a = Act.cycleStart)).length

/-- How many cycle completions (flag releases) a list of actions
contains. -/
def nStops (l : List Act) : Nat :=
  (l.filter fun a => decide (a = Act.releaseFlag)).length

/-- How many cycles are active in a system state: one while steps of a
cycle are still pending, zero otherwise. -/
def activeN (st : SysState) : Nat := if st.rest = [] then 0 else 1

/-- The character just before position `i` of `content`, where `prev` sits
just before position `0`. -/
def prevCharAt (prev : Option Char) (content : List Char) : Nat → Option Char
  | 0 => prev
  | i + 1 => content[i]?

/-- The scanner `reSearchWordAux` succeeds exactly when some position of
the text carries a boundary-delimited occurrence of the token. -/
lemma reSearchWordAux_iff (tok : List Char) (htok : tok ≠ []) :
    ∀ (l : List Char) (prev : Option Char),
      reSearchWordAux tok prev l = true ↔
        ∃ i, boundaryOk (prevCharAt prev l i) = true ∧
             startsWithTok tok (l.drop i) = true ∧
             boundaryOk ((l.drop i).drop tok.length).head? = true := by
  intro l
  induction l with
  | nil =>
    intro prev
    constructor
    · intro h
      simp [reSearchWordAux] at h
    · rintro ⟨i, -, h2, -⟩
      cases tok with
      | nil => exact absurd rfl htok
      | cons t ts => simp [startsWithTok] at h2
  | cons c rest ih =>
    intro prev
    simp only [reSearchWordAux, Bool.or_eq_true, Bool.and_eq_true]
    constructor
    · rintro (⟨⟨h1, h2⟩, h3⟩ | h)
      · exact ⟨0, by simpa [prevCharAt] using h1, by simpa using h2, by simpa using h3⟩
      · obtain ⟨i, h1, h2, h3⟩ := (ih (some c)).mp h
        refine ⟨i + 1, ?_, by simpa using h2, by simpa using h3⟩
        cases i with
        | zero => simpa [prevCharAt] using h1
        | succ j => simpa [prevCharAt] using h1
    · rintro ⟨i, h1, h2, h3⟩
      cases i with
      | zero =>
        exact Or.inl ⟨⟨by simpa [prevCharAt] using h1, by simpa using h2⟩,
          by simpa using h3⟩
      | succ j =>
        refine Or.inr ((ih (some c)).mpr ⟨j, ?_, by simpa using h2, by simpa using h3⟩)
        cases j with
        | zero => simpa [prevCharAt] using h1
        | succ k => simpa [prevCharAt] using h1

/-- `check_for_person` as an existential over the label files. -/
lemma check_for_person_iff (dirExists : Bool) (labels : List LabelFile) :
    check_for_person dirExists labels = true ↔
      dirExists = true ∧ ∃ f ∈ labels, consideredFile f = true ∧
        reSearchWord PERSON_CLASS_ID f.content = true := by
  cases dirExists <;>
    simp [check_for_person, List.any_eq_true, Bool.and_eq_true, and_assoc]

/-- The fold inside `pyMaxExp` yields the seed or a list element, of a key
no smaller than every key seen. -/
lemma pyFold_spec (xs : List ExpData) : ∀ b : ExpData,
    (xs.foldl (fun b e => if b.ctime < e.ctime then e else b) b = b ∨
      xs.foldl (fun b e => if b.ctime < e.ctime then e else b) b ∈ xs) ∧
    b.ctime ≤ (xs.foldl (fun b e => if b.ctime < e.ctime then e else b) b).ctime ∧
    ∀ x ∈ xs, x.ctime ≤ (xs.foldl (fun b e => if b.ctime < e.ctime then e else b) b).ctime := by
  induction xs with
  | nil => intro b; simp
  | cons y ys ih =>
    intro b
    simp only [List.foldl_cons]
    obtain ⟨hmem, hle, hall⟩ := ih (if b.ctime < y.ctime then y else b)
    have hby : b.ctime ≤ (if b.ctime < y.ctime then y else b).ctime := by
      split <;> omega
    have hyy : y.ctime ≤ (if b.ctime < y.ctime then y else b).ctime := by
      split <;> omega
    refine ⟨?_, by omega, ?_⟩
    · rcases hmem with h | h
      · rw [h]
        split
        · exact Or.inr (List.mem_cons_self _ _)
        · exact Or.inl rfl
      · exact Or.inr (List.mem_cons_of_mem _ h)
    · intro x hx
      rcases List.mem_cons.mp hx with rfl | hx
      · omega
      · exact hall x hx

/-- `pyMaxExp` returns a member of maximal creation time. -/
lemma pyMaxExp_spec (l : List ExpData) (e : ExpData) (h : pyMaxExp l = some e) :
    e ∈ l ∧ ∀ x ∈ l, x.ctime ≤ e.ctime := by
  cases l with
  | nil => simp [pyMaxExp] at h
  | cons x xs =>
    simp only [pyMaxExp, Option.some.injEq] at h
    obtain ⟨hmem, hle, hall⟩ := pyFold_spec xs x
    subst h
    constructor
    · rcases hmem with h | h
      · rw [h]; exact List.mem_cons_self _ _
      · exact List.mem_cons_of_mem _ h
    · intro z hz
      rcases List.mem_cons.mp hz with rfl | hz
      · exact hle
      · exact hall z hz

/-- `pyMaxExp` is some exactly on non-empty lists. -/
lemma pyMaxExp_eq_none_iff (l : List ExpData) : pyMaxExp l = none ↔ l = [] := by
  cases l <;> simp [pyMaxExp]

/-- `get_latest_exp_folder` is none exactly when no folder exists. -/
lemma get_latest_none_iff (now : Int) (exps : List ExpData) :
    get_latest_exp_folder now exps = none ↔ exps = [] := by
  cases exps with
  | nil => simp [get_latest_exp_folder]
  | cons x xs =>
    simp only [get_latest_exp_folder, List.isEmpty_iff]
    constructor
    · intro h
      split at h
      · rw [pyMaxExp_eq_none_iff] at h
        exact h
      · rw [pyMaxExp_eq_none_iff] at h
        simp_all
    · intro h
      exact absurd h (List.cons_ne_nil x xs)

/-- The folder `get_latest_exp_folder` returns is a candidate of maximal
creation time. -/
lemma get_latest_max (now : Int) (exps : List ExpData) (e : ExpData)
    (h : get_latest_exp_folder now exps = some e) :
    e ∈ exps ∧ ∀ x ∈ exps, x.ctime ≤ e.ctime := by
  cases exps with
  | nil => simp [get_latest_exp_folder] at h
  | cons y ys =>
    simp only [get_latest_exp_folder] at h
    split at h
    · exact pyMaxExp_spec _ _ h
    · obtain ⟨hmem, hall⟩ := pyMaxExp_spec _ _ h
      have hrec : now - 30 < e.ctime := by
        have := (List.mem_filter.mp hmem).2
        simpa using this
      refine ⟨(List.mem_filter.mp hmem).1, ?_⟩
      intro x hx
      by_cases hx30 : now - 30 < x.ctime
      · exact hall x (List.mem_filter.mpr ⟨hx, by simpa using hx30⟩)
      · omega

/-- When some candidate is recent, the selected folder is recent. -/
lemma get_latest_recent (now : Int) (exps : List ExpData) (e : ExpData)
    (h : get_latest_exp_folder now exps = some e)
    (hr : ∃ x ∈ exps, now - 30 < x.ctime) :
    now - 30 < e.ctime := by
  cases exps with
  | nil => simp [get_latest_exp_folder] at h
  | cons y ys =>
    obtain ⟨x, hx, hx30⟩ := hr
    simp only [get_latest_exp_folder] at h
    have hne : (List.filter (fun e => decide (now - 30 < e.ctime)) (y :: ys)).isEmpty = false := by
      rw [List.isEmpty_eq_false_iff_exists_mem]
      exact ⟨x, List.mem_filter.mpr ⟨hx, by simpa using hx30⟩⟩
    rw [hne] at h
    simp only [Bool.false_eq_true, if_false] at h
    have hmem := (pyMaxExp_spec _ _ h).1
    have := (List.mem_filter.mp hmem).2
    simpa using this

/-- Every action of the `try` body is one of the in-cycle stage actions. -/
lemma tryBody_acts (env : CycleEnv) :
    ∀ a ∈ (tryBody env).1,
      a = Act.launchDetector ∨ a = Act.waitForProc ∨ a = Act.settleDelay ∨
      a = Act.locateOutput ∨ a = Act.outputMissingLog ∨ a = Act.inspectLabels ∨
      a = Act.locateEvidence ∨ (∃ ev, a = Act.alert ev) ∨ a = Act.standbyLog := by
  intro a ha
  unfold tryBody at ha
  split at ha
  · simp at ha
  · split at ha
    · simp at ha
      tauto
    · split at ha
      · simp at ha
        tauto
      · split at ha
        · split at ha
          · simp at ha
            tauto
          · simp at ha
            rcases ha with rfl | rfl | rfl | rfl | rfl | rfl | rfl
            · tauto
            · tauto
            · tauto
            · tauto
            · tauto
            · tauto
            · exact Or.inr (Or.inr (Or.inr (Or.inr (Or.inr (Or.inr
                (Or.inr (Or.inl ⟨_, rfl⟩)))))))
        · simp at ha
          tauto

/-- The `try` body never performs the capture, cleanup, flag or
trigger-handling actions. -/
lemma tryBody_not_special (env : CycleEnv) :
    ∀ a ∈ (tryBody env).1,
      a ≠ Act.releaseFlag ∧ a ≠ Act.removeTemp ∧ a ≠ Act.captureAttempt ∧
      a ≠ Act.catchError ∧ a ≠ Act.cycleStart ∧ a ≠ Act.discardTrigger := by
  intro a ha
  rcases tryBody_acts env a ha with h | h | h | h | h | h | h | ⟨ev, h⟩ | h <;>
    subst h <;> simp

/-- The two possible shapes of a cycle trace, by capture outcome. -/
lemma cycle_shape (env : CycleEnv) (s0 : SState) :
    (capture_single_frame CAMERA_INDEX TEMP_IMAGE_PATH env.cap = false ∧
      start_yolo_detection env s0 =
        [(Act.captureAttempt, s0),
         (Act.releaseFlag, { s0 with is_detecting := false })]) ∨
    (capture_single_frame CAMERA_INDEX TEMP_IMAGE_PATH env.cap = true ∧
      start_yolo_detection env s0 =
        (((Act.captureAttempt, { s0 with tempExists := true }) ::
            (tryBody env).1.map (fun a => (a, { s0 with tempExists := true })))
          ++ (if (tryBody env).2 then
                [(Act.catchError, { s0 with tempExists := true })] else [])
          ++ [(Act.removeTemp, { s0 with tempExists := false })])
        ++ [(Act.releaseFlag, { is_detecting := false, tempExists := false })]) := by
  by_cases hc : capture_single_frame CAMERA_INDEX TEMP_IMAGE_PATH env.cap
  · right
    refine ⟨hc, ?_⟩
    unfold start_yolo_detection
    simp [hc, List.append_assoc]
  · left
    refine ⟨by simpa using hc, ?_⟩
    unfold start_yolo_detection
    simp [hc]

/-- A cycle trace always ends by releasing `is_detecting`. -/
lemma cycle_getLast (env : CycleEnv) (s0 : SState) :
    ∃ s, (start_yolo_detection env s0).getLast? = some (Act.releaseFlag, s) ∧
      s.is_detecting = false := by
  rcases cycle_shape env s0 with ⟨_, heq⟩ | ⟨_, heq⟩
  · exact ⟨{ s0 with is_detecting := false }, by rw [heq]; simp, rfl⟩
  · exact ⟨{ is_detecting := false, tempExists := false },
      by rw [heq]; exact List.getLast?_concat _, rfl⟩

/-- A cycle trace is never empty. -/
lemma cycle_ne_nil (env : CycleEnv) (s0 : SState) :
    start_yolo_detection env s0 ≠ [] := by
  rcases cycle_shape env s0 with ⟨_, heq⟩ | ⟨_, heq⟩ <;> rw [heq] <;> simp

/-- Before its final step, a cycle never releases the flag (the flag keeps
the value the cycle started with) and never emits a cycle start. -/
lemma cycle_dropLast_spec (env : CycleEnv) (s0 : SState) :
    ∀ p ∈ (start_yolo_detection env s0).dropLast,
      p.1 ≠ Act.releaseFlag ∧ p.1 ≠ Act.cycleStart ∧
      p.2.is_detecting = s0.is_detecting := by
  intro p hp
  rcases cycle_shape env s0 with ⟨_, heq⟩ | ⟨_, heq⟩
  · rw [heq] at hp
    simp only [List.dropLast_cons₂, List.dropLast_single, List.mem_singleton] at hp
    subst hp
    simp
  · rw [heq, List.dropLast_concat] at hp
    simp only [List.cons_append, List.mem_cons, List.mem_append, List.mem_map,
      List.mem_singleton] at hp
    rcases hp with rfl | (⟨a, ha, rfl⟩ | hif) | rfl | hnil
    · simp
    · obtain ⟨h1, -, -, -, h5, -⟩ := tryBody_not_special env a ha
      exact ⟨h1, h5, rfl⟩
    · by_cases he : (tryBody env).2 <;> simp [he] at hif
      subst hif
      simp
    · simp
    · exact absurd hnil (List.not_mem_nil p)

/-- A well-formed pending cycle: it ends with the flag release, and no
earlier step releases the flag, starts a cycle, or sees the flag low. -/
def GoodRest (rest : List (Act × SState)) : Prop :=
  (∃ s, rest.getLast? = some (Act.releaseFlag, s) ∧ s.is_detecting = false) ∧
  ∀ p ∈ rest.dropLast, p.1 ≠ Act.releaseFlag ∧ p.1 ≠ Act.cycleStart ∧
    p.2.is_detecting = true

/-- System invariant: either idle with no pending steps, or the flag is
held high over a well-formed pending cycle. -/
def Inv (st : SysState) : Prop :=
  st.rest = [] ∨ (st.flag = true ∧ GoodRest st.rest)

/-- A freshly started cycle is a well-formed pending cycle. -/
lemma goodRest_start (env : CycleEnv) (temp : Bool) :
    GoodRest (start_yolo_detection env { is_detecting := true, tempExists := temp }) := by
  refine ⟨cycle_getLast env _, ?_⟩
  intro p hp
  exact cycle_dropLast_spec env _ p hp

/-- The initial state satisfies the invariant. -/
lemma inv_init : Inv initState := Or.inl rfl

/-- One system step preserves the invariant, and keeps the accounting
`started cycles + previously active = completed cycles + now active`. -/
lemma sysStep_spec (st : SysState) (e : Ev) (h : Inv st) :
    Inv (sysStep st e).1 ∧
    nStarts (sysStep st e).2 + activeN st =
      nStops (sysStep st e).2 + activeN (sysStep st e).1 := by
  obtain ⟨flag, temp, rest⟩ := st
  cases e with
  | tick =>
    cases rest with
    | nil => exact ⟨h, by simp [sysStep, activeN, nStarts, nStops]⟩
    | cons q tl =>
      obtain ⟨a, s⟩ := q
      rcases h with h | ⟨hflag, ⟨sl, hlast, hlflag⟩, hdrop⟩
      · exact absurd h (List.cons_ne_nil _ _)
      cases tl with
      | nil =>
        simp only [List.getLast?_singleton, Option.some.injEq, Prod.mk.injEq] at hlast
        obtain ⟨rfl, rfl⟩ := hlast
        refine ⟨Or.inl rfl, ?_⟩
        simp [sysStep, activeN, nStarts, nStops, List.filter]
      | cons b tl2 =>
        have hmem : (a, s) ∈ ((a, s) :: b :: tl2).dropLast := by
          simp [List.dropLast_cons₂]
        obtain ⟨hna, hnc, hsd⟩ := hdrop _ hmem
        refine ⟨?_, ?_⟩
        · refine Or.inr ⟨by simpa [sysStep] using hsd, ⟨sl, ?_, hlflag⟩, ?_⟩
          · simpa [sysStep] using hlast
          · intro p hp
            refine hdrop p ?_
            simp only [sysStep] at hp
            simp only [List.dropLast_cons₂] at hp ⊢
            exact List.mem_cons_of_mem _ hp
        · simp [sysStep, activeN, nStarts, nStops, List.filter, hna, hnc]
  | deliver topic payload env =>
    by_cases ht : (topic == AI_TRIGGER_TOPIC && payload == activateCmd) = true
    · by_cases hf : flag = true
      · refine ⟨?_, ?_⟩
        · simpa [sysStep, ht, hf] using h
        · simp [sysStep, ht, hf, nStarts, nStops, List.filter]
      · have hrest : rest = [] := by
          rcases h with h | ⟨hflag, -⟩
          · exact h
          · exact absurd hflag hf
        subst hrest
        refine ⟨?_, ?_⟩
        · refine Or.inr ⟨by simp [sysStep, ht, hf], ?_⟩
          simpa [sysStep, ht, hf] using goodRest_start env temp
        · have hne := cycle_ne_nil env { is_detecting := true, tempExists := temp }
          simp [sysStep, ht, hf, nStarts, nStops, List.filter, activeN, hne]
    · refine ⟨?_, ?_⟩
      · simpa [sysStep, ht] using h
      · simp [sysStep, ht, nStarts, nStops]

/-- Running any event list preserves the invariant and the accounting. -/
lemma sysRun_spec (evs : List Ev) : ∀ st : SysState, Inv st →
    Inv (sysRun st evs).1 ∧
    nStarts (sysRun st evs).2 + activeN st =
      nStops (sysRun st evs).2 + activeN (sysRun st evs).1 := by
  induction evs with
  | nil => intro st h; exact ⟨h, rfl⟩
  | cons e es ih =>
    intro st h
    obtain ⟨h1, hcount1⟩ := sysStep_spec st e h
    obtain ⟨h2, hcount2⟩ := ih (sysStep st e).1 h1
    refine ⟨by simpa [sysRun] using h2, ?_⟩
    have : nStarts ((sysStep st e).2 ++ (sysRun (sysStep st e).1 es).2) =
        nStarts (sysStep st e).2 + nStarts (sysRun (sysStep st e).1 es).2 := by
      simp [nStarts, List.filter_append]
    have h4 : nStops ((sysStep st e).2 ++ (sysRun (sysStep st e).1 es).2) =
        nStops (sysStep st e).2 + nStops (sysRun (sysStep st e).1 es).2 := by
      simp [nStops, List.filter_append]
    simp only [sysRun]
    omega

/-- A capture oracle on which everything succeeds. -/
def okCap : CapEnv :=
  { openRaises := false, opened := true, readRaises := false,
    readOk := true, writeRaises := false }

/-- A capture oracle on which the device cannot be opened. -/
def busyCap : CapEnv :=
  { openRaises := false, opened := false, readRaises := false,
    readOk := false, writeRaises := false }

/-- A benign cycle environment: capture succeeds, the detector runs and
produces no output folder. -/
def quietEnv : CycleEnv :=
  { cap := okCap, launchRaises := false, exitCode := 0, now := 1000,
    exps := [], inspectRaises := false, evidenceRaises := false }

/-- A cycle environment whose frame capture fails (device busy). -/
def busyEnv : CycleEnv :=
  { cap := busyCap, launchRaises := false, exitCode := 0, now := 1000,
    exps := [], inspectRaises := false, evidenceRaises := false }

/-- A cycle environment whose detector launch raises. -/
def errEnv : CycleEnv :=
  { cap := okCap, launchRaises := true, exitCode := 0, now := 1000,
    exps := [], inspectRaises := false, evidenceRaises := false }

/-- C10: `capture_single_frame` is total: it returns a boolean for every
device index, destination path and device behaviour; every exception the
body can raise (device open, read, write) is caught and mapped to the
failure result `false`, and `true` is returned exactly on the fully
successful path of the body. -/
theorem c10_capture_total (index path : String) (env : CapEnv) :
    (∀ e, capture_body env = Except.error e →
       capture_single_frame index path env = false) ∧
    (capture_single_frame index path env = true ↔
       capture_body env = Except.ok true) ∧
    (capture_single_frame index path env = false ↔
       (capture_body env = Except.ok false ∨
        ∃ e, capture_body env = Except.error e)) := by
  refine ⟨?_, ?_, ?_⟩ <;> unfold capture_single_frame <;>
    rcases hb : capture_body env with b | e
  · cases b <;> simp
  · simp
  · cases b <;> simp
  · simp
  · cases b <;> simp
  · simp

/-- Witness for C10: a raising device open yields the failure result. -/
theorem c10_capture_total_witness :
    capture_single_frame CAMERA_INDEX TEMP_IMAGE_PATH
      { openRaises := true, opened := false, readRaises := false,
        readOk := false, writeRaises := false } = false :=
  (c10_capture_total CAMERA_INDEX TEMP_IMAGE_PATH _).1 "open" rfl

/-- C9: `check_for_person` inspects only files whose names end in `.txt`;
if no file of the labels directory has such a name, the result is false,
whatever the files contain. -/
theorem c9_txt_only (dirExists : Bool) (labels : List LabelFile)
    (h : ∀ f ∈ labels, endsWithTxt f.name = false) :
    check_for_person dirExists labels = false := by
  cases dirExists with
  | false => simp [check_for_person]
  | true =>
    simp only [check_for_person, if_true]
    rw [List.any_eq_false]
    intro f hf
    simp [consideredFile, h f hf]

/-- A non-`.txt` annotation file whose content names class 0. -/
def csvLabelFile : LabelFile :=
  { name := "evidence.csv".toList, readRaises := false,
    content := "0 10 20 30 40".toList }

/-- Witness for C9: a labels directory holding only a non-`.txt` file
that does contain the class id yields false. -/
theorem c9_txt_only_witness : check_for_person true [csvLabelFile] = false :=
  c9_txt_only true [csvLabelFile] (by decide)

/-- The 45-second-old candidate of C6's concrete example. -/
def oldExp : ExpData :=
  { path := "runs/detect/exp1", ctime := 955, labelsDirExists := false,
    labels := [], cropsDirExists := false, cropJpgs := [] }

/-- The 5-second-old candidate of C6's concrete example. -/
def newExp : ExpData :=
  { path := "runs/detect/exp2", ctime := 995, labelsDirExists := false,
    labels := [], cropsDirExists := false, cropJpgs := [] }

/-- C6: `get_latest_exp_folder` returns none exactly when no candidate
exists; any returned folder is a candidate of maximal creation time; when
a candidate lies within the 30-second recency window the returned folder
does too; and on exactly a 45-second-old and a 5-second-old candidate
(clock at 1000) it returns the 5-second-old one. -/
theorem c6_locator (now : Int) (exps : List ExpData) :
    (get_latest_exp_folder now exps = none ↔ exps = []) ∧
    (∀ e, get_latest_exp_folder now exps = some e →
       e ∈ exps ∧ ∀ x ∈ exps, x.ctime ≤ e.ctime) ∧
    ((∃ x ∈ exps, now - 30 < x.ctime) →
       ∀ e, get_latest_exp_folder now exps = some e → now - 30 < e.ctime) ∧
    get_latest_exp_folder 1000 [oldExp, newExp] = some newExp := by
  refine ⟨get_latest_none_iff now exps, ?_, ?_, by decide⟩
  · intro e he
    exact get_latest_max now exps e he
  · intro hr e he
    exact get_latest_recent now exps e he hr

/-- Witness for C6: the selected folder of the concrete example is a
candidate of maximal creation time. -/
theorem c6_locator_witness :
    newExp ∈ [oldExp, newExp] ∧
    ∀ x ∈ [oldExp, newExp], x.ctime ≤ newExp.ctime :=
  (c6_locator 1000 [oldExp, newExp]).2.1 newExp (by decide)

/-- The annotation file of C2's counterexample: a single YOLO line for
class 15, whose normalized coordinate `0.5` contains a `0` that is
delimited by word boundaries (space before, dot after). -/
def cexLabelFile : LabelFile :=
  { name := "temp_capture.txt".toList, readRaises := false,
    content := "15 0.5 0.5 0.2 0.2".toList }

/-- C2 counterexample: `check_for_person` returns true on a labels
directory whose only annotation line starts with class id 15 and contains
no standalone `0` at the start of any line — the claimed iff with
line-start token matching fails (the `0` inside the coordinate `0.5`
matches the `\b0\b` search). -/
theorem c2_counterexample :
    check_for_person true [cexLabelFile] = true ∧
    specLineStartToken PERSON_CLASS_ID cexLabelFile.content = false := by
  constructor <;> decide

/-- C2 amended: `check_for_person` with target id 0 returns true iff some
scanned `.txt` annotation file is readable, non-empty, and its content
contains `0` delimited by word boundaries at SOME position — not
necessarily at the start of a line, and possibly inside a decimal token
such as `0.5`; the claim's concrete examples hold: content
`0 10 20 30 40` yields true and a zero-byte file yields false without
error. -/
theorem c2_word_boundary_match :
    (∀ (dirExists : Bool) (labels : List LabelFile),
      check_for_person dirExists labels = true ↔
        dirExists = true ∧ ∃ f ∈ labels, consideredFile f = true ∧
          ∃ i, boundaryOk (prevCharAt none f.content i) = true ∧
               startsWithTok PERSON_CLASS_ID (f.content.drop i) = true ∧
               boundaryOk ((f.content.drop i).drop PERSON_CLASS_ID.length).head? =
                 true) ∧
    check_for_person true
      [{ name := "temp_capture.txt".toList, readRaises := false,
         content := "0 10 20 30 40".toList }] = true ∧
    check_for_person true
      [{ name := "temp_capture.txt".toList, readRaises := false,
         content := [] }] = false := by
  refine ⟨?_, by decide, by decide⟩
  intro dirExists labels
  have htok : PERSON_CLASS_ID ≠ [] := by simp [PERSON_CLASS_ID]
  rw [check_for_person_iff]
  constructor
  · rintro ⟨hd, f, hf, hcf, hsearch⟩
    rw [reSearchWord, reSearchWordAux_iff PERSON_CLASS_ID htok f.content none]
      at hsearch
    exact ⟨hd, f, hf, hcf, hsearch⟩
  · rintro ⟨hd, f, hf, hcf, hocc⟩
    refine ⟨hd, f, hf, hcf, ?_⟩
    rw [reSearchWord, reSearchWordAux_iff PERSON_CLASS_ID htok f.content none]
    exact hocc

/-- C5: when frame capture fails, the cycle is exactly the capture
attempt followed by the flag release: the detector is never launched, no
alert is emitted, and the orchestrator ends idle (flag low), accepting
triggers again. -/
theorem c5_capture_failure (env : CycleEnv) (s0 : SState)
    (h : capture_single_frame CAMERA_INDEX TEMP_IMAGE_PATH env.cap = false) :
    start_yolo_detection env s0 =
      [(Act.captureAttempt, s0),
       (Act.releaseFlag, { s0 with is_detecting := false })] ∧
    Act.launchDetector ∉ (start_yolo_detection env s0).map (fun p => p.1) ∧
    (∀ ev, Act.alert ev ∉ (start_yolo_detection env s0).map (fun p => p.1)) ∧
    (∃ s, (start_yolo_detection env s0).getLast? = some (Act.releaseFlag, s) ∧
       s.is_detecting = false) := by
  rcases cycle_shape env s0 with ⟨-, heq⟩ | ⟨hc, -⟩
  · refine ⟨heq, ?_, ?_, ?_⟩
    · rw [heq]; simp
    · intro ev; rw [heq]; simp
    · exact ⟨{ s0 with is_detecting := false }, by rw [heq]; simp, rfl⟩
  · rw [hc] at h
    exact absurd h (by simp)

/-- Witness for C5 at a busy-device environment. -/
theorem c5_capture_failure_witness :
    start_yolo_detection busyEnv { is_detecting := true, tempExists := false } =
      [(Act.captureAttempt, { is_detecting := true, tempExists := false }),
       (Act.releaseFlag, { is_detecting := false, tempExists := false })] :=
  (c5_capture_failure busyEnv { is_detecting := true, tempExists := false } rfl).1

/-- C7: a cycle that starts with the flag held ends with the flag
release as its very last step; every earlier step keeps the flag high and
is not a release (so a trigger arriving during cleanup is still
rejected), and whenever the try block ran, the temporary-image removal
lies strictly before the release. -/
theorem c7_release_last (env : CycleEnv) (s0 : SState)
    (h : s0.is_detecting = true) :
    (∃ s, (start_yolo_detection env s0).getLast? = some (Act.releaseFlag, s) ∧
       s.is_detecting = false) ∧
    (∀ p ∈ (start_yolo_detection env s0).dropLast,
       p.1 ≠ Act.releaseFlag ∧ p.2.is_detecting = true) ∧
    (capture_single_frame CAMERA_INDEX TEMP_IMAGE_PATH env.cap = true →
       ∃ s, (Act.removeTemp, s) ∈ (start_yolo_detection env s0).dropLast) := by
  refine ⟨cycle_getLast env s0, ?_, ?_⟩
  · intro p hp
    obtain ⟨h1, -, h3⟩ := cycle_dropLast_spec env s0 p hp
    exact ⟨h1, h ▸ h3⟩
  · intro hc
    rcases cycle_shape env s0 with ⟨hf, -⟩ | ⟨-, heq⟩
    · rw [hc] at hf
      exact absurd hf (by simp)
    · refine ⟨{ s0 with tempExists := false }, ?_⟩
      rw [heq, List.dropLast_concat]
      simp

/-- Witness for C7 at a benign environment. -/
theorem c7_release_last_witness :
    ∃ s, (start_yolo_detection quietEnv
        { is_detecting := true, tempExists := false }).getLast? =
      some (Act.releaseFlag, s) ∧ s.is_detecting = false :=
  (c7_release_last quietEnv { is_detecting := true, tempExists := false } rfl).1

/-- C4: starting without a stale artifact, the temporary image is absent
when the cycle ends; a state in which it exists occurs only after a
successful capture and strictly before the cleanup and release steps; and
whenever capture succeeded, the cleanup step that removes it is part of
the trace. -/
theorem c4_temp_never_outlives (env : CycleEnv) (s0 : SState)
    (h : s0.tempExists = false) :
    (∃ p, (start_yolo_detection env s0).getLast? = some p ∧
       p.2.tempExists = false) ∧
    (∀ p ∈ start_yolo_detection env s0, p.2.tempExists = true →
       capture_single_frame CAMERA_INDEX TEMP_IMAGE_PATH env.cap = true ∧
       p.1 ≠ Act.removeTemp ∧ p.1 ≠ Act.releaseFlag) ∧
    (capture_single_frame CAMERA_INDEX TEMP_IMAGE_PATH env.cap = true →
       (Act.removeTemp,
          { is_detecting := s0.is_detecting, tempExists := false }) ∈
         start_yolo_detection env s0) := by
  rcases cycle_shape env s0 with ⟨hc, heq⟩ | ⟨hc, heq⟩
  · refine ⟨⟨(Act.releaseFlag, { s0 with is_detecting := false }),
      by rw [heq]; simp, by simpa using h⟩, ?_, ?_⟩
    · intro p hp htemp
      rw [heq] at hp
      simp only [List.mem_cons, List.mem_singleton, List.not_mem_nil,
        or_false] at hp
      rcases hp with rfl | rfl <;> simp_all
    · intro hcap
      rw [hcap] at hc
      exact absurd hc (by simp)
  · refine ⟨⟨(Act.releaseFlag, { is_detecting := false, tempExists := false }),
      by rw [heq]; exact List.getLast?_concat _, rfl⟩, ?_, ?_⟩
    · intro p hp htemp
      rw [heq] at hp
      simp only [List.cons_append, List.mem_cons, List.mem_append,
        List.mem_map, List.mem_singleton, List.not_mem_nil, or_false] at hp
      refine ⟨hc, ?_⟩
      rcases hp with rfl | ((⟨a, ha, rfl⟩ | hif) | rfl) | rfl
      · simp
      · obtain ⟨h1, h2, -, -, -, -⟩ := tryBody_not_special env a ha
        exact ⟨h2, h1⟩
      · by_cases he : (tryBody env).2 <;> simp [he] at hif
        subst hif
        simp
      · simp at htemp
      · simp at htemp
    · intro hcap
      rw [heq]
      simp

/-- Witness for C4 at a benign environment: the final state carries no
temporary image. -/
theorem c4_temp_never_outlives_witness :
    ∃ p, (start_yolo_detection quietEnv
        { is_detecting := true, tempExists := false }).getLast? = some p ∧
      p.2.tempExists = false :=
  (c4_temp_never_outlives quietEnv
    { is_detecting := true, tempExists := false } rfl).1

/-- C8: every cycle trace is total and ends idle whatever the stage
outcomes are; when the try body raises (launch error, inspection error,
evidence error), the exception is caught at the orchestrator (the catch
step appears in the trace) rather than escaping; and from the idle state
the listener accepts the next trigger. -/
theorem c8_errors_contained (env : CycleEnv) (s0 : SState)
    (h : s0.is_detecting = true) :
    (∃ s, (start_yolo_detection env s0).getLast? = some (Act.releaseFlag, s) ∧
       s.is_detecting = false) ∧
    (capture_single_frame CAMERA_INDEX TEMP_IMAGE_PATH env.cap = true →
       (tryBody env).2 = true →
       Act.catchError ∈ (start_yolo_detection env s0).map (fun p => p.1)) ∧
    (∀ env2, (sysStep { flag := false, temp := false, rest := [] }
        (Ev.deliver AI_TRIGGER_TOPIC activateCmd env2)).2 = [Act.cycleStart]) := by
  refine ⟨cycle_getLast env s0, ?_, ?_⟩
  · intro hcap herr
    rcases cycle_shape env s0 with ⟨hf, -⟩ | ⟨-, heq⟩
    · rw [hcap] at hf
      exact absurd hf (by simp)
    · rw [heq]
      simp [herr]
  · intro env2
    simp [sysStep]

/-- Witness for C8 at an environment whose detector launch raises: the
orchestrator catches the error. -/
theorem c8_errors_contained_witness :
    Act.catchError ∈ (start_yolo_detection errEnv
      { is_detecting := true, tempExists := false }).map (fun p => p.1) :=
  (c8_errors_contained errEnv { is_detecting := true, tempExists := false }
    rfl).2.1 rfl rfl

/-- C1 (single-flight): over every event sequence from the initial state
the number of started cycles never exceeds the number of completed cycles
by more than one — at most one cycle is in flight at any instant — and a
trigger delivered while the flag is held is answered by exactly the
discard log with the listener state unchanged: it is not queued and
cannot be coalesced into a later run. -/
theorem c1_single_flight (evs : List Ev) (st : SysState) (env : CycleEnv)
    (h : st.flag = true) :
    nStarts (sysRun initState evs).2 ≤ nStops (sysRun initState evs).2 + 1 ∧
    sysStep st (Ev.deliver AI_TRIGGER_TOPIC activateCmd env) =
      (st, [Act.discardTrigger]) := by
  constructor
  · obtain ⟨-, hcount⟩ := sysRun_spec evs initState inv_init
    have h0 : activeN initState = 0 := rfl
    have h1 : activeN (sysRun initState evs).1 ≤ 1 := by
      unfold activeN
      split <;> omega
    omega
  · obtain ⟨flag, temp, rest⟩ := st
    simp only [SysState.flag] at h
    subst h
    simp [sysStep]

/-- Witness for C1: a two-trigger sequence stays within the bound, and a
busy listener discards a delivered trigger unchanged. -/
theorem c1_single_flight_witness :
    nStarts (sysRun initState
      [Ev.deliver AI_TRIGGER_TOPIC activateCmd quietEnv,
       Ev.deliver AI_TRIGGER_TOPIC activateCmd quietEnv]).2 ≤
      nStops (sysRun initState
        [Ev.deliver AI_TRIGGER_TOPIC activateCmd quietEnv,
         Ev.deliver AI_TRIGGER_TOPIC activateCmd quietEnv]).2 + 1 ∧
    sysStep { flag := true, temp := false, rest := [] }
        (Ev.deliver AI_TRIGGER_TOPIC activateCmd quietEnv) =
      ({ flag := true, temp := false, rest := [] }, [Act.discardTrigger]) :=
  c1_single_flight
    [Ev.deliver AI_TRIGGER_TOPIC activateCmd quietEnv,
     Ev.deliver AI_TRIGGER_TOPIC activateCmd quietEnv]
    { flag := true, temp := false, rest := [] } quietEnv rfl

/-- The environment demonstrating C3's divergence: the detector child
process exits with status 1, yet left behind an output folder whose
labels file marks class 0 and whose crops directory holds one image. -/
def bugEnv : CycleEnv :=
  { cap := okCap, launchRaises := false, exitCode := 1, now := 1000,
    exps := [{ path := "runs/detect/exp7", ctime := 995,
               labelsDirExists := true,
               labels := [{ name := "temp_capture.txt".toList,
                            readRaises := false,
                            content := "0 10 20 30 40".toList }],
               cropsDirExists := true,
               cropJpgs := [("crop1.jpg", 996)] }],
    inspectRaises := false, evidenceRaises := false }

/-- C3 (divergence witness): with a non-zero exit status the cycle is NOT
aborted — the exit status returned by `process.wait()` is never read, no
error is caught, and the cycle still locates the output, inspects the
labels and raises the alert. The claim's abort behaviour holds only for
launch errors, not for non-zero exits. -/
theorem c3_nonzero_exit_not_aborted :
    bugEnv.exitCode ≠ 0 ∧
    Act.locateOutput ∈ (start_yolo_detection bugEnv
      { is_detecting := true, tempExists := false }).map (fun p => p.1) ∧
    Act.inspectLabels ∈ (start_yolo_detection bugEnv
      { is_detecting := true, tempExists := false }).map (fun p => p.1) ∧
    Act.alert (some "crop1.jpg") ∈ (start_yolo_detection bugEnv
      { is_detecting := true, tempExists := false }).map (fun p => p.1) ∧
    Act.catchError ∉ (start_yolo_detection bugEnv
      { is_detecting := true, tempExists := false }).map (fun p => p.1) := by
  refine ⟨by decide, ?_, ?_, ?_, ?_⟩ <;> decide

end SmartSentinel
